import Mathlib

/-!
Verification of the ninav frontend's gallery/viewer state logic.

Shallow embedding of the client code:
* the gallery loader (`load` / `loadRemainingPages` in `App.tsx`),
* the favorites store (`useFavorites`),
* the lightbox viewer state machine (`Lightbox.tsx`),
* the timeline grouper (`useTimeline`),
* the view router (`useViewRouting`),
* the media URL resolver and `fetchAllImages` (`lib/api.ts`).

Images are identified by natural numbers; server responses are modelled as
functions from page numbers (and page sizes) to responses.  Asynchronous
sequential code is modelled as explicit state-passing: each `setGallery`
call of the source corresponds to one emitted `GalleryState` in a list.
-/

/-- One image record, reduced to its stable identity.  The remaining
metadata fields of `ImageMetadata` play no role in the pagination logic. -/
abbrev ImageId := Nat

/-- The gallery state held by `useState<GalleryState>` in `App.tsx`:
`{items, total, loading, error?}`. -/
structure GalleryState where
  items : List ImageId
  total : Nat
  loading : Bool
  error : Option String
  deriving DecidableEq, Repr

/-- The initial gallery state of `App.tsx`: `{items: [], total: 0, loading: true}`. -/
def initialGallery : GalleryState := ⟨[], 0, true, none⟩

/-- A response of `GET /images?page&page_size`: `{items, total}` (the echoed
`page`/`page_size` fields are unused by the loader). -/
structure PageResp where
  items : List ImageId
  total : Nat
  deriving DecidableEq, Repr

/-- A fetch function: page number and page size to either an error message
(a rejected promise) or a page response. -/
abbrev Fetch := Nat → Nat → Except String PageResp

/-- An honest paginated server over a fixed library list `L`: page `p` of
size `s` returns the `p`-th slice of `L` and reports `total = L.length`. -/
def honestFetch (L : List ImageId) : Fetch := fun page size =>
  Except.ok ⟨(L.drop ((page - 1) * size)).take size, L.length⟩

/-- The `while` loop of `loadRemainingPages` in `App.tsx` (lines 219-242).
`total` is the first page's total, `page` the next page to request (page
size 60), `items` the local accumulator (initialised from the stale closure
value `gallery.items`), `s` the gallery state of the latest `setGallery`.
Returns the list of gallery states emitted by the loop, one per applied
page.  `fuel` bounds the number of iterations; the loop itself stops when
`items.length < total` fails, a page errors, or a page comes back empty. -/
def loadRemainingGo (fetch : Fetch) (total : Nat) :
    Nat → Nat → List ImageId → GalleryState → List GalleryState
  | 0, _, _, _ => []
  | fuel + 1, page, items, s =>
    if items.length < total then
      match fetch page 60 with
      | Except.error _ => []
      | Except.ok p =>
        if p.items.length > 0 then
          let items2 := items ++ p.items
          let s2 := { s with items := items2 }
          s2 :: loadRemainingGo fetch total fuel (page + 1) items2 s2
        else []
    else []

/-- The `load` effect of `App.tsx` (lines 188-248), as the sequence of
gallery states produced by its `setGallery` calls, in order.  `g0` is the
gallery state captured by the effect's closure (the state at effect-run
time).  The first page is requested with size 30; on success the state is
replaced wholesale; on failure `loading`/`error` are updated on the
previous state (items are spread from `prev`).  If `total` exceeds the
first page's length, `loadRemainingPages` runs with its accumulator
initialised from the stale closure value `g0.items`. -/
def loadStates (fetch : Fetch) (g0 : GalleryState) (fuel : Nat) : List GalleryState :=
  let gLoading : GalleryState := { g0 with loading := true, error := none }
  match fetch 1 30 with
  | Except.error e => [gLoading, { gLoading with loading := false, error := some e }]
  | Except.ok p1 =>
    let s1 : GalleryState := ⟨p1.items, p1.total, false, none⟩
    gLoading :: s1 ::
      (if p1.total > p1.items.length
       then loadRemainingGo fetch p1.total fuel 2 g0.items s1
       else [])

/-- The favorites toggle of `useFavorites` (`toggleFavorite`): copy the
set, then delete the id if present, else add it. -/
def toggleFavorite (s : Finset String) (x : String) : Finset String :=
  if x ∈ s then s.erase x else insert x s

/-- Claim C6: toggling a favorite is an involution, and a single toggle
removes a present id and adds an absent one. -/
theorem toggle_favorite_involution (s : Finset String) (x : String) :
    toggleFavorite (toggleFavorite s x) x = s
      ∧ (x ∈ s → toggleFavorite s x = s.erase x)
      ∧ (x ∉ s → toggleFavorite s x = insert x s) := by
  by_cases h : x ∈ s
  · refine ⟨?_, fun _ => by simp [toggleFavorite, h], fun hx => absurd h hx⟩
    simp only [toggleFavorite, if_pos h]
    rw [if_neg (Finset.not_mem_erase x s), Finset.insert_erase h]
  · refine ⟨?_, fun hx => absurd hx h, fun _ => by simp [toggleFavorite, h]⟩
    simp only [toggleFavorite, if_neg h]
    rw [if_pos (Finset.mem_insert_self x s), Finset.erase_insert h]

/-- Witness for `toggle_favorite_involution` at a concrete set and id,
mirroring the spec scenario: toggling `"img_1"` on `∅` adds it, toggling
again restores `∅`. -/
theorem toggle_favorite_involution_witness :
    toggleFavorite (toggleFavorite (∅ : Finset String) "img_1") "img_1" = ∅
      ∧ ("img_1" ∉ (∅ : Finset String) →
          toggleFavorite (∅ : Finset String) "img_1" = insert "img_1" ∅) :=
  ⟨(toggle_favorite_involution ∅ "img_1").1, (toggle_favorite_involution ∅ "img_1").2.2⟩

set_option maxRecDepth 100000 in
/-- Claim C1 (code bug evaluation): against an honest 100-image server,
the loader's first page shows images 0-29, but the background loop starts
from the stale (empty) closure items and requests page 2 at size 60, so
the applied state holds exactly images 60-99: the first page's images are
dropped, images 30-59 are never fetched, the items list is not a prefix of
server order, and the final count is 40 rather than min(100, 30+40) = 70. -/
theorem gallery_load_drops_first_page :
    (loadStates (honestFetch (List.range 100)) initialGallery 5).getLast?.map
        GalleryState.items = some ((List.range 100).drop 60)
      ∧ ((List.range 100).drop 60).isPrefixOf (List.range 100) = false
      ∧ ((loadStates (honestFetch (List.range 100)) initialGallery 5).map
          (fun s => s.items.length)) = [0, 30, 40]
      ∧ min 100 (30 + 40) = 70 :=
  ⟨rfl, rfl, rfl, rfl⟩

/-- Counterexample to claim C2 as stated: when the first page fetch fails,
previously displayed items are NOT cleared — the catch handler spreads the
previous state, so the items survive.  Here a gallery showing item 7 keeps
it after the failure. -/
theorem first_page_failure_keeps_items_counterexample :
    (loadStates (fun _ _ => Except.error "boom") ⟨[7], 1, false, none⟩ 1).getLast?
        = some ⟨[7], 1, false, some "boom"⟩
      ∧ ([7] : List ImageId) ≠ [] :=
  ⟨rfl, by simp⟩

/-- Claim C2 (amended): when the first page fetch fails, the final gallery
state has `error` set to the failure message and `loading = false`, while
the previously displayed items (and total) are left unchanged rather than
cleared. -/
theorem first_page_failure_state (fetch : Fetch) (g0 : GalleryState) (fuel : Nat)
    (e : String) (h : fetch 1 30 = Except.error e) :
    (loadStates fetch g0 fuel).getLast? =
      some ⟨g0.items, g0.total, false, some e⟩ := by
  cases g0
  simp [loadStates, h]

/-- Witness for `first_page_failure_state` at a concrete failing fetch. -/
theorem first_page_failure_state_witness :
    ((fun _ _ => Except.error "down") : Fetch) 1 30 = Except.error "down"
      ∧ (loadStates (fun _ _ => Except.error "down") ⟨[9, 9], 2, false, none⟩ 3).getLast?
          = some ⟨[9, 9], 2, false, some "down"⟩ :=
  ⟨rfl, first_page_failure_state _ ⟨[9, 9], 2, false, none⟩ 3 "down" rfl⟩

set_option maxRecDepth 100000 in
/-- Counterexample to claim C3 as stated (for ANY sequence of server
responses): a server answering `{items: [9], total: 0}` makes the loader
emit a state with 1 item and total 0; and even an honest server violates
the invariant on a reload whose effect closure captured a non-empty
gallery (stale accumulator plus fresh pages overshoot the total). -/
theorem gallery_invariant_counterexample :
    ((loadStates (fun _ _ => Except.ok ⟨[9], 0⟩) initialGallery 1).all
        (fun s => decide (s.items.length ≤ s.total))) = false
      ∧ ((loadStates (honestFetch (List.range 200)) ⟨List.range 100, 100, false, none⟩ 5).all
          (fun s => decide (s.items.length ≤ s.total))) = false :=
  ⟨rfl, rfl⟩

/-- In the background loop run against an honest server from an accumulator
that is a slice `(L.drop 60).take (k * 60)`, every emitted state keeps
`items.length ≤ total`. -/
theorem loadRemainingGo_honest_inv (L : List ImageId) :
    ∀ (fuel k : Nat) (s : GalleryState), s.total = L.length →
      ∀ t ∈ loadRemainingGo (honestFetch L) L.length fuel (k + 2)
          ((L.drop 60).take (k * 60)) s,
        t.items.length ≤ t.total := by
  intro fuel
  induction fuel with
  | zero => intro k s _ t ht; simp [loadRemainingGo] at ht
  | succ fuel ih =>
    intro k s hs t ht
    rw [loadRemainingGo] at ht
    by_cases hlt : ((L.drop 60).take (k * 60)).length < L.length
    · rw [if_pos hlt] at ht
      simp only [honestFetch] at ht
      by_cases hne : ((L.drop ((k + 2 - 1) * 60)).take 60).length > 0
      · rw [if_pos hne] at ht
        have hslice : (L.drop 60).take (k * 60) ++ (L.drop ((k + 2 - 1) * 60)).take 60
            = (L.drop 60).take ((k + 1) * 60) := by
          have h1 : (k + 2 - 1) * 60 = k * 60 + 60 := by omega
          have h2 : L.drop (k * 60 + 60) = (L.drop 60).drop (k * 60) := by
            rw [List.drop_drop]
            congr 1
            omega
          have h3 : (k + 1) * 60 = k * 60 + 60 := by ring
          rw [h1, h2, h3, ← List.take_add]
        rcases List.mem_cons.mp ht with h | h
        · subst h
          simp only [hslice, hs]
          calc ((L.drop 60).take ((k + 1) * 60)).length
              ≤ (L.drop 60).length := by
                rw [List.length_take]; exact min_le_right _ _
            _ ≤ L.length := by rw [List.length_drop]; omega
        · have hk1 : k + 2 + 1 = (k + 1) + 2 := by ring
          rw [hk1, hslice] at h
          exact ih (k + 1) _ (by simp [hs]) t h
      · rw [if_neg hne] at ht; simp at ht
    · rw [if_neg hlt] at ht; simp at ht

/-- Claim C3 (amended): against an honest paginated server and starting
from the app's initial empty gallery state, every state emitted by the
loader satisfies `items.length ≤ total`. -/
theorem gallery_items_le_total_honest (L : List ImageId) (fuel : Nat) (s : GalleryState)
    (hs : s ∈ loadStates (honestFetch L) initialGallery fuel) :
    s.items.length ≤ s.total := by
  simp only [loadStates, initialGallery, honestFetch] at hs
  rcases List.mem_cons.mp hs with h | hs
  · subst h; simp
  rcases List.mem_cons.mp hs with h | hs
  · subst h
    simp only [List.length_take]
    exact min_le_right _ _
  split at hs
  · have := loadRemainingGo_honest_inv L fuel 0
        ⟨List.take 30 (List.drop ((1 - 1) * 30) L), L.length, false, none⟩ rfl s
    simp only [Nat.zero_mul, List.take_zero] at this
    exact this hs
  · simp at hs

/-- Witness for `gallery_items_le_total_honest` on a two-image library. -/
theorem gallery_items_le_total_honest_witness :
    (⟨[0, 1], 2, false, none⟩ : GalleryState) ∈
        loadStates (honestFetch [0, 1]) initialGallery 2
      ∧ ([0, 1] : List ImageId).length ≤ 2 :=
  ⟨by decide, gallery_items_le_total_honest [0, 1] 2 ⟨[0, 1], 2, false, none⟩ (by decide)⟩

/-- The three viewer modes of the lightbox (`Lightbox.tsx`). -/
inductive VMode
  | frame
  | fill
  | zoom
  deriving DecidableEq, Repr

/-- The lightbox viewer state (`Lightbox.tsx` local state plus the
`panStartRef` ref): mode, last non-zoom mode, zoom level, pan offset,
panning flag, and the captured pointer gesture (pointer id, pointer start
position, pan at gesture start).  Coordinates and zoom are rationals,
modelling the real-valued pixel arithmetic of the source. -/
structure ViewerState where
  mode : VMode
  baseMode : VMode
  zoom : ℚ
  panX : ℚ
  panY : ℚ
  isPanning : Bool
  panStart : Option (Nat × ℚ × ℚ × ℚ × ℚ)
  deriving DecidableEq

/-- The state after `resetZoomState` / on first render: `frame`, zoom 1,
pan at the origin, no gesture. -/
def initViewer : ViewerState := ⟨.frame, .frame, 1, 0, 0, false, none⟩

/-- `clampPanOffset` of `Lightbox.tsx` (lines 91-102): identity `(0,0)`
when `zoom <= 1`, otherwise each axis clamped to
`± (zoom - 1) * dimension / 2` of the live container (width `w`,
height `h`). -/
def clampPanOffset (w h zoom x y : ℚ) : ℚ × ℚ :=
  if zoom ≤ 1 then (0, 0)
  else
    let maxX := (zoom - 1) * w / 2
    let maxY := (zoom - 1) * h / 2
    (max (-maxX) (min maxX x), max (-maxY) (min maxY y))

/-- `handleViewerModeChange` of `Lightbox.tsx`: no-op when the mode is
unchanged; switching to a non-zoom mode records it as `baseMode` and resets
zoom/pan/gesture; entering zoom sets zoom 1.5 and resets pan/gesture. -/
def handleViewerModeChange (m : VMode) (s : ViewerState) : ViewerState :=
  if s.mode = m then s
  else if m ≠ VMode.zoom then
    { s with mode := m, baseMode := m, zoom := 1, panX := 0, panY := 0,
             isPanning := false, panStart := none }
  else
    { s with mode := m, zoom := 3 / 2, panX := 0, panY := 0, panStart := none }

/-- The successor in the `frame → fill → zoom → frame` cycle
(`VIEWER_MODE_OPTIONS` order). -/
def nextVMode : VMode → VMode
  | .frame => .fill
  | .fill => .zoom
  | .zoom => .frame

/-- `cycleViewerMode` of `Lightbox.tsx`. -/
def cycleViewerMode (s : ViewerState) : ViewerState :=
  handleViewerModeChange (nextVMode s.mode) s

/-- `toggleZoomShortcut` of `Lightbox.tsx` (lines 133-139), also the
double-click handler: from zoom return to `baseMode`, otherwise enter
zoom. -/
def toggleZoomShortcut (s : ViewerState) : ViewerState :=
  if s.mode = VMode.zoom then handleViewerModeChange s.baseMode s
  else handleViewerModeChange VMode.zoom s

/-- The wheel zoom clamp `Math.max(MIN_ZOOM, Math.min(MAX_ZOOM, z))` with
`MIN_ZOOM = 0.5`, `MAX_ZOOM = 5`. -/
def clampZoom (z : ℚ) : ℚ := max (1 / 2) (min 5 z)

/-- `handleViewerWheel` of `Lightbox.tsx`: outside zoom mode first switch
to zoom silently, then step the zoom by `±0.25` (up = `deltaY < 0`),
clamped to `[0.5, 5]`, re-clamping the pan offset at the new zoom. -/
def handleViewerWheel (w h : ℚ) (up : Bool) (s : ViewerState) : ViewerState :=
  let s1 := if s.mode ≠ VMode.zoom then handleViewerModeChange VMode.zoom s else s
  let dir : ℚ := if up then 1 else -1
  let next := clampZoom (s1.zoom + dir * (1 / 4))
  let p := clampPanOffset w h next s1.panX s1.panY
  { s1 with zoom := next, panX := p.1, panY := p.2 }

/-- `handleViewerPointerDown` of `Lightbox.tsx`: only in zoom mode,
captures the pointer and records the start position and current pan. -/
def handleViewerPointerDown (pid : Nat) (x y : ℚ) (s : ViewerState) : ViewerState :=
  if s.mode ≠ VMode.zoom then s
  else { s with panStart := some (pid, x, y, s.panX, s.panY), isPanning := true }

/-- `handleViewerPointerMove` of `Lightbox.tsx`: only in zoom mode and for
the captured pointer, sets the pan to the clamped
`startPan + (pointer - startPointer)`. -/
def handleViewerPointerMove (w h : ℚ) (pid : Nat) (x y : ℚ) (s : ViewerState) :
    ViewerState :=
  if s.mode ≠ VMode.zoom then s
  else
    match s.panStart with
    | none => s
    | some (id0, sx, sy, px, py) =>
      if id0 ≠ pid then s
      else
        let p := clampPanOffset w h s.zoom (px + (x - sx)) (py + (y - sy))
        { s with panX := p.1, panY := p.2 }

/-- `handleViewerPointerUpOrCancel` of `Lightbox.tsx`: releases the
captured pointer and ends panning (no-op for other pointers). -/
def handleViewerPointerUp (pid : Nat) (s : ViewerState) : ViewerState :=
  match s.panStart with
  | none => s
  | some (id0, _, _, _, _) =>
    if id0 = pid then { s with panStart := none, isPanning := false } else s

/-- The user events the viewer machine reacts to. -/
inductive VEvent
  | wheel (up : Bool)
  | pointerDown (pid : Nat) (x y : ℚ)
  | pointerMove (pid : Nat) (x y : ℚ)
  | pointerUp (pid : Nat)
  | cycle
  | toggleZoom

/-- One step of the viewer machine on container dimensions `w × h`. -/
def stepViewer (w h : ℚ) (s : ViewerState) : VEvent → ViewerState
  | .wheel up => handleViewerWheel w h up s
  | .pointerDown pid x y => handleViewerPointerDown pid x y s
  | .pointerMove pid x y => handleViewerPointerMove w h pid x y s
  | .pointerUp pid => handleViewerPointerUp pid s
  | .cycle => cycleViewerMode s
  | .toggleZoom => toggleZoomShortcut s

/-- Run the viewer machine from the initial state over a list of events. -/
def runViewer (w h : ℚ) (evs : List VEvent) : ViewerState :=
  evs.foldl (stepViewer w h) initViewer

/-- The pan invariant of claim C4: the pan offset is the origin whenever
`zoom ≤ 1` or the mode is not zoom, and within the `± (zoom-1) * dim / 2`
box whenever `zoom > 1`. -/
def panInvariant (w h : ℚ) (s : ViewerState) : Prop :=
  ((s.zoom ≤ 1 ∨ s.mode ≠ VMode.zoom) → s.panX = 0 ∧ s.panY = 0)
    ∧ (1 < s.zoom →
        |s.panX| ≤ (s.zoom - 1) * w / 2 ∧ |s.panY| ≤ (s.zoom - 1) * h / 2)

/-- `clampPanOffset` establishes the pan invariant bounds by itself. -/
theorem clampPanOffset_bounds (w h zoom x y : ℚ) (hw : 0 ≤ w) (hh : 0 ≤ h) :
    (zoom ≤ 1 → clampPanOffset w h zoom x y = (0, 0))
      ∧ (1 < zoom →
          |(clampPanOffset w h zoom x y).1| ≤ (zoom - 1) * w / 2
            ∧ |(clampPanOffset w h zoom x y).2| ≤ (zoom - 1) * h / 2) := by
  constructor
  · intro hz
    simp [clampPanOffset, hz]
  · intro hz
    have hz1 : ¬ zoom ≤ 1 := not_le.mpr hz
    have hz0 : (0 : ℚ) ≤ zoom - 1 := by linarith
    have hx : (0 : ℚ) ≤ (zoom - 1) * w / 2 := by
      apply div_nonneg (mul_nonneg hz0 hw)
      norm_num
    have hy : (0 : ℚ) ≤ (zoom - 1) * h / 2 := by
      apply div_nonneg (mul_nonneg hz0 hh)
      norm_num
    constructor
    · simp only [clampPanOffset, if_neg hz1]
      rw [abs_le]
      constructor
      · exact le_max_left _ _
      · exact max_le (by linarith) (min_le_left _ _)
    · simp only [clampPanOffset, if_neg hz1]
      rw [abs_le]
      constructor
      · exact le_max_left _ _
      · exact max_le (by linarith) (min_le_left _ _)

/-- `handleViewerModeChange` preserves the pan invariant. -/
theorem handleViewerModeChange_inv (w h : ℚ) (hw : 0 ≤ w) (hh : 0 ≤ h)
    (m : VMode) (s : ViewerState) (hs : panInvariant w h s) :
    panInvariant w h (handleViewerModeChange m s) := by
  by_cases he : s.mode = m
  · simpa [handleViewerModeChange, he] using hs
  by_cases hm : m = VMode.zoom
  · subst hm
    have hrw : handleViewerModeChange VMode.zoom s =
        { s with mode := VMode.zoom, zoom := 3 / 2, panX := 0, panY := 0,
                 panStart := none } := by
      simp [handleViewerModeChange, he]
    rw [hrw]
    refine ⟨fun _ => ⟨rfl, rfl⟩, fun _ => ⟨?_, ?_⟩⟩
    · show |(0 : ℚ)| ≤ ((3 : ℚ) / 2 - 1) * w / 2
      rw [abs_zero]
      linarith
    · show |(0 : ℚ)| ≤ ((3 : ℚ) / 2 - 1) * h / 2
      rw [abs_zero]
      linarith
  · have hrw : handleViewerModeChange m s =
        { s with mode := m, baseMode := m, zoom := 1, panX := 0, panY := 0,
                 isPanning := false, panStart := none } := by
      simp [handleViewerModeChange, he, hm]
    rw [hrw]
    exact ⟨fun _ => ⟨rfl, rfl⟩, fun hz => absurd hz (by norm_num)⟩

/-- A state whose pan has just been set by `clampPanOffset` at the zoom
written into the same state satisfies the pan invariant, provided its mode
is zoom. -/
theorem clamp_state_inv (w h z : ℚ) (hw : 0 ≤ w) (hh : 0 ≤ h)
    (s1 : ViewerState) (x y : ℚ) (hmode : s1.mode = VMode.zoom) :
    panInvariant w h
      { s1 with zoom := z,
                panX := (clampPanOffset w h z x y).1,
                panY := (clampPanOffset w h z x y).2 } := by
  have hb := clampPanOffset_bounds w h z x y hw hh
  constructor
  · intro hc
    rcases hc with hc | hc
    · have h0 := hb.1 hc
      constructor
      · show (clampPanOffset w h z x y).1 = 0
        rw [h0]
      · show (clampPanOffset w h z x y).2 = 0
        rw [h0]
    · exact absurd hmode hc
  · intro hz
    exact hb.2 hz

/-- Every viewer event preserves the pan invariant. -/
theorem stepViewer_inv (w h : ℚ) (hw : 0 ≤ w) (hh : 0 ≤ h) (s : ViewerState)
    (hs : panInvariant w h s) (e : VEvent) :
    panInvariant w h (stepViewer w h s e) := by
  cases e with
  | wheel up =>
    show panInvariant w h (handleViewerWheel w h up s)
    have hmode : (if s.mode ≠ VMode.zoom then handleViewerModeChange VMode.zoom s else s).mode
        = VMode.zoom := by
      by_cases hz : s.mode = VMode.zoom
      · simp [hz]
      · simp [hz, handleViewerModeChange]
    exact clamp_state_inv w h _ hw hh _ _ _ hmode
  | pointerDown pid x y =>
    show panInvariant w h (handleViewerPointerDown pid x y s)
    unfold handleViewerPointerDown
    by_cases hz : s.mode ≠ VMode.zoom
    · simpa [hz] using hs
    · rw [if_neg (by simpa using hz)]
      exact hs
  | pointerMove pid x y =>
    show panInvariant w h (handleViewerPointerMove w h pid x y s)
    unfold handleViewerPointerMove
    by_cases hz : s.mode ≠ VMode.zoom
    · simpa [hz] using hs
    · rw [if_neg (by simpa using hz)]
      cases hps : s.panStart with
      | none => exact hs
      | some q =>
        obtain ⟨id0, sx, sy, px, py⟩ := q
        dsimp only
        by_cases hid : id0 ≠ pid
        · simpa [hid] using hs
        · rw [if_neg (by simpa using hid)]
          exact clamp_state_inv w h s.zoom hw hh
            { s with panStart := some (id0, sx, sy, px, py) } _ _ (not_not.mp hz)
  | pointerUp pid =>
    show panInvariant w h (handleViewerPointerUp pid s)
    unfold handleViewerPointerUp
    cases hps : s.panStart with
    | none => exact hs
    | some q =>
      obtain ⟨id0, sx, sy, px, py⟩ := q
      dsimp only
      by_cases hid : id0 = pid
      · rw [if_pos hid]
        exact ⟨fun hc => hs.1 hc, fun hz => hs.2 hz⟩
      · rw [if_neg hid]
        exact hs
  | cycle =>
    exact handleViewerModeChange_inv w h hw hh _ s hs
  | toggleZoom =>
    show panInvariant w h (toggleZoomShortcut s)
    unfold toggleZoomShortcut
    by_cases hz : s.mode = VMode.zoom
    · rw [if_pos hz]
      exact handleViewerModeChange_inv w h hw hh _ s hs
    · rw [if_neg hz]
      exact handleViewerModeChange_inv w h hw hh _ s hs

/-- Claim C4: for every sequence of wheel, pointer, cycle and toggle-zoom
events on a container of nonnegative dimensions, the reachable viewer
state has pan `(0,0)` whenever `zoom ≤ 1` or the mode is not zoom, and pan
clamped within `± (zoom - 1) * dimension / 2` whenever `zoom > 1`. -/
theorem viewer_pan_invariant (w h : ℚ) (hw : 0 ≤ w) (hh : 0 ≤ h)
    (evs : List VEvent) : panInvariant w h (runViewer w h evs) := by
  have hinit : panInvariant w h initViewer := by
    constructor
    · intro _
      exact ⟨rfl, rfl⟩
    · intro hz
      simp [initViewer] at hz
  suffices hgen : ∀ (l : List VEvent) (s : ViewerState), panInvariant w h s →
      panInvariant w h (l.foldl (stepViewer w h) s) from hgen evs initViewer hinit
  intro l
  induction l with
  | nil => intro s hs; exact hs
  | cons e rest ih =>
    intro s hs
    exact ih _ (stepViewer_inv w h hw hh s hs e)

/-- Witness for `viewer_pan_invariant` on a 100 × 80 container and a
concrete gesture: enter zoom, grab, drag far right, zoom in. -/
theorem viewer_pan_invariant_witness :
    (0 : ℚ) ≤ 100 ∧ (0 : ℚ) ≤ 80
      ∧ panInvariant 100 80 (runViewer 100 80
          [VEvent.toggleZoom, VEvent.pointerDown 1 0 0,
           VEvent.pointerMove 1 500 0, VEvent.wheel true]) :=
  ⟨by norm_num, by norm_num,
    viewer_pan_invariant 100 80 (by norm_num) (by norm_num) _⟩

/-- Claim C5: toggle-zoom (double-click or shortcut) returns to the last
non-zoom mode `baseMode` when the current mode is zoom, and otherwise
enters zoom with the zoom level reset to 1.5. -/
theorem toggle_zoom_mode_spec (s : ViewerState) (hb : s.baseMode ≠ VMode.zoom) :
    (s.mode = VMode.zoom → (toggleZoomShortcut s).mode = s.baseMode)
      ∧ (s.mode ≠ VMode.zoom →
          (toggleZoomShortcut s).mode = VMode.zoom
            ∧ (toggleZoomShortcut s).zoom = 3 / 2) := by
  constructor
  · intro hm
    have h1 : ¬ s.mode = s.baseMode := fun hcc => hb (hcc.symm.trans hm)
    have h2 : ¬ VMode.zoom = s.baseMode := fun hcc => hb hcc.symm
    simp [toggleZoomShortcut, handleViewerModeChange, hm, h1, h2, hb]
  · intro hm
    constructor <;> simp [toggleZoomShortcut, handleViewerModeChange, hm]

/-- Witness for `toggle_zoom_mode_spec` at the initial viewer state. -/
theorem toggle_zoom_mode_spec_witness :
    initViewer.baseMode ≠ VMode.zoom
      ∧ (initViewer.mode ≠ VMode.zoom →
          (toggleZoomShortcut initViewer).mode = VMode.zoom
            ∧ (toggleZoomShortcut initViewer).zoom = 3 / 2) :=
  ⟨by decide, (toggle_zoom_mode_spec initViewer (by decide)).2⟩

/-- A calendar day `(year, month, day)` as produced by the grouping key
`getFullYear()-getMonth()-getDate()` of `useTimeline` (a normalized local
date). -/
structure Day where
  y : Nat
  m : Nat
  d : Nat
  deriving DecidableEq, Repr

/-- Calendar order on days; models comparison of the `getTime()` values of
the normalized dates built from the group keys. -/
def Day.le (a b : Day) : Prop :=
  a.y < b.y ∨ (a.y = b.y ∧ (a.m < b.m ∨ (a.m = b.m ∧ a.d ≤ b.d)))

instance Day.decLe : ∀ a b : Day, Decidable (Day.le a b) := fun a b => by
  unfold Day.le
  infer_instance

/-- An image as seen by the timeline grouper: identity plus the calendar
day of its `modified_at` timestamp. -/
structure TImage where
  id : Nat
  day : Day
  deriving DecidableEq, Repr

/-- Insert one image into the day-keyed group list, preserving
first-encounter order (JS `Map` insertion-order semantics): append to an
existing day's bucket, else push a new bucket at the end. -/
def addToGroups : List (Day × List TImage) → TImage → List (Day × List TImage)
  | [], i => [(i.day, [i])]
  | (dk, is) :: rest, i =>
    if i.day = dk then (dk, is ++ [i]) :: rest
    else (dk, is) :: addToGroups rest i

/-- The `groups` map of `useTimeline`: bucket the image list by day. -/
def groupByDay (images : List TImage) : List (Day × List TImage) :=
  images.foldl addToGroups []

/-- A `TimelineGroup` restricted to the fields the grouping logic computes
(`key`/`label` strings are presentational renderings of `date` and are
elided). -/
structure TGroup where
  date : Day
  images : List TImage
  count : Nat
  isNewMonth : Bool
  isNewYear : Bool
  deriving DecidableEq, Repr

/-- Build the raw group record (flags initialised to `false` as in the
source). -/
def toRawGroup (g : Day × List TImage) : TGroup :=
  ⟨g.1, g.2, g.2.length, false, false⟩

/-- The sort comparator `(a, b) => b.date.getTime() - a.date.getTime()`:
`a` precedes `b` when `b`'s date is at most `a`'s. -/
def groupGE (a b : TGroup) : Prop := Day.le b.date a.date

instance groupGE.decRel : DecidableRel groupGE := fun a b => by
  unfold groupGE
  infer_instance

instance groupGE.total : IsTotal TGroup groupGE :=
  ⟨fun a b => by unfold groupGE Day.le; omega⟩

instance groupGE.trans : IsTrans TGroup groupGE :=
  ⟨fun a b c hab hbc => by unfold groupGE Day.le at *; omega⟩

/-- The descending-by-date sort of `useTimeline`. -/
def sortGroupsDesc (gs : List TGroup) : List TGroup :=
  List.insertionSort groupGE gs

/-- The flag-marking forward scan of `useTimeline` (lines 222-232):
carrying the previous group's date, mark `isNewYear` when there is no
previous group or the year changed (also forcing `isNewMonth`), and
`isNewMonth` additionally when the month changed. -/
def markFlags : Option Day → List TGroup → List TGroup
  | _, [] => []
  | prev, g :: rest =>
    let isNY : Bool := match prev with
      | none => true
      | some p => decide (¬ g.date.y = p.y)
    let isNM : Bool := isNY || (match prev with
      | none => true
      | some p => decide (¬ g.date.m = p.m))
    { g with isNewYear := isNY, isNewMonth := isNM } :: markFlags (some g.date) rest

/-- The timeline grouper `useTimeline`: bucket by day, sort descending by
date, then mark the month/year flags in a forward scan. -/
def timelineGroups (images : List TImage) : List TGroup :=
  markFlags none (sortGroupsDesc ((groupByDay images).map toRawGroup))

/-- The claim's forward-scan contract: walking the output with the
previous group at hand, `isNewYear` holds exactly for the first group or a
year change, and `isNewMonth` exactly for a month change or `isNewYear`. -/
def flagSpec : Option TGroup → List TGroup → Prop
  | _, [] => True
  | prev, g :: rest =>
    g.isNewYear = (match prev with
        | none => true
        | some p => decide (¬ g.date.y = p.date.y))
      ∧ g.isNewMonth = ((match prev with
            | none => false
            | some p => decide (¬ g.date.m = p.date.m)) || g.isNewYear)
      ∧ flagSpec (some g) rest

/-- The marked flags satisfy the claim's forward-scan contract. -/
theorem markFlags_flagSpec :
    ∀ (l : List TGroup) (prev : Option TGroup),
      flagSpec prev (markFlags (prev.map (fun p => p.date)) l)
  | [], _ => trivial
  | g :: rest, none =>
    ⟨rfl, rfl,
      markFlags_flagSpec rest (some { g with isNewYear := true, isNewMonth := true })⟩
  | g :: rest, some p =>
    ⟨rfl, Bool.or_comm _ _,
      markFlags_flagSpec rest
        (some { g with
                isNewYear := decide (¬ g.date.y = p.date.y),
                isNewMonth := decide (¬ g.date.y = p.date.y)
                  || decide (¬ g.date.m = p.date.m) })⟩

/-- Flag marking does not change the dates of the groups. -/
theorem markFlags_dates :
    ∀ (pd : Option Day) (l : List TGroup),
      (markFlags pd l).map (fun g => g.date) = l.map (fun g => g.date)
  | _, [] => rfl
  | _, g :: rest =>
    congrArg (List.cons g.date) (markFlags_dates (some g.date) rest)

/-- Flag marking preserves any pairwise relation that depends only on the
dates. -/
theorem markFlags_pairwise (r : Day → Day → Prop) (pd : Option Day)
    (l : List TGroup) (h : List.Pairwise (fun a b => r a.date b.date) l) :
    List.Pairwise (fun a b => r a.date b.date) (markFlags pd l) := by
  have h3 : List.Pairwise r ((markFlags pd l).map (fun g => g.date)) := by
    rw [markFlags_dates]
    exact List.pairwise_map.mpr h
  exact List.pairwise_map.mp h3

/-- Claim C7: the timeline grouper returns the day-groups sorted by date
descending, and the forward scan marks `isNewYear` exactly for the first
group or a year change, and `isNewMonth` exactly for a month change or
`isNewYear`. -/
theorem timeline_sorted_and_flagged (images : List TImage) :
    List.Pairwise (fun a b => Day.le b.date a.date) (timelineGroups images)
      ∧ flagSpec none (timelineGroups images) := by
  constructor
  · exact markFlags_pairwise (fun x z => Day.le z x) none _
      (List.sorted_insertionSort groupGE ((groupByDay images).map toRawGroup))
  · exact markFlags_flagSpec (sortGroupsDesc ((groupByDay images).map toRawGroup)) none

/-- `viewTitle` of `useViewRouting`: title lookup with an implicit
default. -/
def viewTitle (v : String) : String :=
  if v = "all" then "All Photos"
  else if v = "faces" then "People"
  else if v = "favorites" then "Favorites"
  else if v = "timeline" then "Timeline"
  else if v = "memories" then "Memories"
  else "All Photos"

/-- `viewSubtitle` of `useViewRouting`: subtitle lookup with an implicit
default. -/
def viewSubtitle (v : String) : String :=
  if v = "all" then
    "Seamlessly browse every asset in your shared folder before layering on face clusters and smart albums."
  else if v = "faces" then
    "Browse discovered people clusters and drill into the faces assigned to each person."
  else if v = "favorites" then
    "All the images you loved in one dedicated board. Favorites stay synced across sessions."
  else if v = "timeline" then ""
  else if v = "memories" then
    "Smart collections curated by events, places, and people. Relive your highlights automatically."
  else "Feature coming soon. Keep browsing in All Photos while we finish this workspace."

/-- `isFavoritesView` of `useViewRouting`. -/
def isFavoritesView (v : String) : Bool := decide (v = "favorites")

/-- `isTimelineView` of `useViewRouting`. -/
def isTimelineView (v : String) : Bool := decide (v = "timeline")

/-- `showGrid` of `useViewRouting`. -/
def showGrid (v : String) : Bool :=
  decide (v = "all") || isFavoritesView v || isTimelineView v

/-- `showFaces` of `useViewRouting`. -/
def showFaces (v : String) : Bool := decide (v = "faces")

/-- The view keys with an explicit entry in the lookup. -/
def knownViewKeys : List String := ["all", "faces", "favorites", "timeline", "memories"]

/-- Claim C8: `showGrid` holds exactly for `all`, `favorites`, `timeline`;
`showFaces` exactly for `faces`; and any key outside the known set gets
the default branch's title and subtitle (the router is a total function,
so it never throws). -/
theorem view_routing_flags_and_default (v : String) :
    (showGrid v = true ↔ v = "all" ∨ v = "favorites" ∨ v = "timeline")
      ∧ (showFaces v = true ↔ v = "faces")
      ∧ (v ∉ knownViewKeys →
          viewTitle v = "All Photos"
            ∧ viewSubtitle v =
              "Feature coming soon. Keep browsing in All Photos while we finish this workspace.") := by
  refine ⟨?_, ?_, ?_⟩
  · simp [showGrid, isFavoritesView, isTimelineView, or_assoc]
  · simp [showFaces]
  · intro hv
    simp only [knownViewKeys, List.mem_cons, List.not_mem_nil, or_false, not_or] at hv
    obtain ⟨h1, h2, h3, h4, h5⟩ := hv
    constructor
    · simp [viewTitle, h1, h2, h3, h4, h5]
    · simp [viewSubtitle, h1, h2, h3, h4, h5]

/-- Witness for `view_routing_flags_and_default` at the unknown key
`"videos"`. -/
theorem view_routing_flags_and_default_witness :
    ("videos" : String) ∉ knownViewKeys
      ∧ viewTitle "videos" = "All Photos"
      ∧ viewSubtitle "videos" =
          "Feature coming soon. Keep browsing in All Photos while we finish this workspace." :=
  ⟨by decide,
    ((view_routing_flags_and_default "videos").2.2 (by decide)).1,
    ((view_routing_flags_and_default "videos").2.2 (by decide)).2⟩

/-- JS `String.prototype.startsWith`, modelled on the character lists. -/
def jsStartsWith (s pre : String) : Bool := pre.data.isPrefixOf s.data

/-- Remove the first occurrence of `pat` from the character list (JS
`String.prototype.replace(pat, '')` with a string pattern replaces only
the first occurrence; absence leaves the string unchanged). -/
def dropFirstOccAux (pat : List Char) : List Char → List Char
  | [] => []
  | c :: cs =>
    if pat.isPrefixOf (c :: cs) then (c :: cs).drop pat.length
    else c :: dropFirstOccAux pat cs

/-- JS `s.replace(pat, '')` on strings. -/
def replaceFirstWithEmpty (pat s : String) : String :=
  ⟨dropFirstOccAux pat.data s.data⟩

/-- JS `String.prototype.split('/')`, accumulator-based: `acc` holds the
current segment reversed. -/
def splitSlashAux : List Char → List Char → List (List Char)
  | acc, [] => [acc.reverse]
  | acc, c :: cs =>
    if c = '/' then acc.reverse :: splitSlashAux [] cs
    else splitSlashAux (c :: acc) cs

/-- JS `s.split('/')` on strings. -/
def jsSplitSlash (s : String) : List String :=
  (splitSlashAux [] s.data).map fun l => ⟨l⟩

/-- The characters `encodeURIComponent` leaves unescaped: ASCII
alphanumerics and `- _ . ! ~ * ' ( )`. -/
def isUnreservedChar (c : Char) : Bool :=
  c.isAlphanum || c = '-' || c = '_' || c = '.' || c = '!' || c = '~'
    || c = '*' || c = '\x27' || c = '(' || c = ')'

/-- The UTF-8 encoding of a character, as byte values. -/
def utf8Bytes (c : Char) : List Nat :=
  let n := c.toNat
  if n < 128 then [n]
  else if n < 2048 then [192 + n / 64, 128 + n % 64]
  else if n < 65536 then [224 + n / 4096, 128 + n / 64 % 64, 128 + n % 64]
  else [240 + n / 262144, 128 + n / 4096 % 64, 128 + n / 64 % 64, 128 + n % 64]

/-- Uppercase hexadecimal digit. -/
def hexDigitChar (n : Nat) : Char :=
  if n < 10 then Char.ofNat (48 + n) else Char.ofNat (55 + n)

/-- Percent-encode a single character as `encodeURIComponent` does. -/
def encodeChar (c : Char) : List Char :=
  if isUnreservedChar c then [c]
  else ((utf8Bytes c).map fun b => ['%', hexDigitChar (b / 16), hexDigitChar (b % 16)]).flatten

/-- JS `encodeURIComponent`. -/
def encodeURIComponent (s : String) : String :=
  ⟨(s.data.map encodeChar).flatten⟩

/-- The `thumbnail` argument of `resolveMediaUrl`:
`boolean | 'small' | 'medium' | 'large'`. -/
inductive ThumbArg
  | flag (b : Bool)
  | size (s : String)

/-- JS truthiness of the `thumbnail` argument (a string is truthy when
non-empty). -/
def thumbTruthy : ThumbArg → Bool
  | .flag b => b
  | .size sz => !sz.isEmpty

/-- `typeof thumbnail === 'string' ? thumbnail : 'medium'`. -/
def thumbSizeName : ThumbArg → String
  | .size sz => sz
  | .flag _ => "medium"

/-- `resolveMediaUrl` of `lib/api.ts` (lines 76-98), with the API origin
passed explicitly (in the source it is derived from the environment by
`getApiOrigin`).  Absolute `http(s)` URLs are returned unchanged;
otherwise the path is normalised to a leading slash, the first `/media/`
is stripped, each `/`-segment percent-encoded, and the result attached to
the thumbnail or media endpoint. -/
def resolveMediaUrl (origin : String) (path : String) (thumbnail : ThumbArg) : String :=
  if jsStartsWith path "http://" || jsStartsWith path "https://" then path
  else
    let normalized := if jsStartsWith path "/" then path else "/" ++ path
    if thumbTruthy thumbnail then
      let mediaPath := replaceFirstWithEmpty "/media/" normalized
      let encodedPath := String.intercalate "/" ((jsSplitSlash mediaPath).map encodeURIComponent)
      origin ++ "/thumbnails/" ++ thumbSizeName thumbnail ++ "/" ++ encodedPath
    else
      let pathOnly := replaceFirstWithEmpty "/media/" normalized
      let encodedPath := String.intercalate "/" ((jsSplitSlash pathOnly).map encodeURIComponent)
      origin ++ "/media/" ++ encodedPath

/-- Claim C9: a path that is already an absolute `http://` or `https://`
URL is returned unchanged by `resolveMediaUrl`, for any thumbnail
argument. -/
theorem resolve_media_url_absolute (origin path : String) (t : ThumbArg)
    (h : (jsStartsWith path "http://" || jsStartsWith path "https://") = true) :
    resolveMediaUrl origin path t = path := by
  unfold resolveMediaUrl
  rw [if_pos h]

/-- Witness for `resolve_media_url_absolute` on a concrete absolute URL
with a size-hint thumbnail argument. -/
theorem resolve_media_url_absolute_witness :
    (jsStartsWith "https://cdn.example.com/a b.jpg" "http://"
        || jsStartsWith "https://cdn.example.com/a b.jpg" "https://") = true
      ∧ resolveMediaUrl "http://localhost:8000" "https://cdn.example.com/a b.jpg"
          (ThumbArg.size "small") = "https://cdn.example.com/a b.jpg" :=
  ⟨by decide,
    resolve_media_url_absolute "http://localhost:8000" "https://cdn.example.com/a b.jpg"
      (ThumbArg.size "small") (by decide)⟩

/-- A response as consumed by `fetchAllImages`: items plus a reported
total, where `none` models a non-finite `total` (the loop's initial
`Infinity`, or a server echoing it). -/
structure ApiPage where
  items : List ImageId
  total : Option Nat
  deriving DecidableEq, Repr

/-- A server for `fetchAllImages`: page number and batch size to a
response. -/
abbrev ApiServer := Nat → Nat → ApiPage

/-- The loop guard `items.length < total` with `total = Infinity`
modelled as `none` (always true). -/
def ltTotal (n : Nat) : Option Nat → Bool
  | none => true
  | some t => decide (n < t)

/-- The `while` loop of `fetchAllImages` (`lib/api.ts` lines 60-74):
fetch the page, append its items, adopt its total, break on an empty
page, else advance; the guard re-checks `items.length < total`.  `fuel`
bounds the iterations, `none` meaning the bound was hit before the loop
exited. -/
def fetchAllGo (server : ApiServer) (batch : Nat) :
    Nat → Nat → List ImageId → Option Nat → Option (List ImageId × Option Nat)
  | 0, _, _, _ => none
  | fuel + 1, page, items, total =>
    if ltTotal items.length total then
      let resp := server page batch
      let items2 := items ++ resp.items
      if resp.items.isEmpty then some (items2, resp.total)
      else fetchAllGo server batch fuel (page + 1) items2 resp.total
    else some (items, total)

/-- `fetchAllImages`: run the loop from page 1 with no items and an
infinite total, then return `items` and
`Number.isFinite(total) ? total : items.length`. -/
def fetchAllImages (server : ApiServer) (batch fuel : Nat) :
    Option (List ImageId × Nat) :=
  (fetchAllGo server batch fuel 1 [] none).map fun r => (r.1, r.2.getD r.1.length)

/-- One abstract iteration of the loop on the state
(next page, items, total). -/
def faStep (server : ApiServer) (batch : Nat)
    (s : Nat × List ImageId × Option Nat) : Nat × List ImageId × Option Nat :=
  (s.1 + 1, s.2.1 ++ (server s.1 batch).items, (server s.1 batch).total)

/-- The loop exits at state `s`: the guard fails, or the next fetched
page is empty. -/
def faStops (server : ApiServer) (batch : Nat)
    (s : Nat × List ImageId × Option Nat) : Prop :=
  ltTotal s.2.1.length s.2.2 = false ∨ (server s.1 batch).items = []

instance faStops.dec (server : ApiServer) (batch : Nat)
    (s : Nat × List ImageId × Option Nat) : Decidable (faStops server batch s) := by
  unfold faStops
  infer_instance

/-- If the loop reaches an exit condition after `k` abstract iterations,
`k + 1` units of fuel make `fetchAllGo` return a result. -/
theorem fetchAllGo_exits (server : ApiServer) (batch : Nat) :
    ∀ (k : Nat) (s : Nat × List ImageId × Option Nat),
      faStops server batch ((faStep server batch)^[k] s) →
      ∃ r, fetchAllGo server batch (k + 1) s.1 s.2.1 s.2.2 = some r := by
  intro k
  induction k with
  | zero =>
    intro s hstop
    simp only [Function.iterate_zero, id_eq] at hstop
    rcases hstop with hstop | hstop
    · exact ⟨(s.2.1, s.2.2), by simp [fetchAllGo, hstop]⟩
    · by_cases hlt : ltTotal s.2.1.length s.2.2 = true
      · exact ⟨(s.2.1 ++ (server s.1 batch).items, (server s.1 batch).total),
          by simp [fetchAllGo, hlt, hstop]⟩
      · have hlt2 : ltTotal s.2.1.length s.2.2 = false := by
          revert hlt
          cases ltTotal s.2.1.length s.2.2 <;> simp
        exact ⟨(s.2.1, s.2.2), by simp [fetchAllGo, hlt2]⟩
  | succ k ih =>
    intro s hstop
    rw [Function.iterate_succ_apply] at hstop
    by_cases hlt : ltTotal s.2.1.length s.2.2 = true
    · cases hL : (server s.1 batch).items with
      | nil =>
        exact ⟨(s.2.1 ++ (server s.1 batch).items, (server s.1 batch).total),
          by simp [fetchAllGo, hlt, hL]⟩
      | cons a as =>
        obtain ⟨r, hr⟩ := ih (faStep server batch s) hstop
        refine ⟨r, ?_⟩
        have hne : (server s.1 batch).items.isEmpty = false := by
          rw [hL]
          rfl
        simp only [fetchAllGo, hlt, if_true, hne, Bool.false_eq_true, if_false]
        exact hr
    · have hlt2 : ltTotal s.2.1.length s.2.2 = false := by
        revert hlt
        cases ltTotal s.2.1.length s.2.2 <;> simp
      exact ⟨(s.2.1, s.2.2), by simp [fetchAllGo, hlt2]⟩

/-- When every server response reports a non-finite total, the loop's
total stays non-finite. -/
theorem fetchAllGo_total_none (server : ApiServer) (batch : Nat)
    (hall : ∀ p b, (server p b).total = none) :
    ∀ (fuel page : Nat) (items : List ImageId) (total : Option Nat),
      total = none →
      ∀ r, fetchAllGo server batch fuel page items total = some r → r.2 = none := by
  intro fuel
  induction fuel with
  | zero =>
    intro page items total ht r hr
    simp [fetchAllGo] at hr
  | succ fuel ih =>
    intro page items total ht r hr
    subst ht
    simp only [fetchAllGo, ltTotal, if_true] at hr
    by_cases hemp : (server page batch).items.isEmpty
    · rw [if_pos hemp] at hr
      cases hr
      exact hall page batch
    · rw [if_neg hemp] at hr
      exact ih (page + 1) _ _ (hall page batch) r hr

/-- Claim C10: if some abstract iteration of `fetchAllImages`'s loop
reaches an exit condition (an empty page or a satisfied total), the loop
terminates with enough fuel; and whenever the server never reports a
finite total, the returned total is the item count. -/
theorem fetch_all_images_terminates (server : ApiServer) (batch : Nat)
    (hstop : ∃ k, faStops server batch ((faStep server batch)^[k] (1, [], none))) :
    (∃ fuel r, fetchAllImages server batch fuel = some r)
      ∧ (∀ fuel r, fetchAllImages server batch fuel = some r →
          (∀ p b, (server p b).total = none) → r.2 = r.1.length) := by
  constructor
  · obtain ⟨k, hk⟩ := hstop
    obtain ⟨r, hr⟩ := fetchAllGo_exits server batch k (1, [], none) hk
    exact ⟨k + 1, (r.1, r.2.getD r.1.length), by simp [fetchAllImages, hr]⟩
  · intro fuel r hr hall
    unfold fetchAllImages at hr
    cases hgo : fetchAllGo server batch fuel 1 [] none with
    | none =>
      rw [hgo] at hr
      simp at hr
    | some q =>
      rw [hgo] at hr
      simp only [Option.map_some', Option.some.injEq] at hr
      have hq : q.2 = none := fetchAllGo_total_none server batch hall fuel 1 [] none rfl q hgo
      rw [← hr]
      show q.2.getD q.1.length = q.1.length
      rw [hq]
      rfl

/-- A two-item, total-2 demo server for the witness: page 1 returns both
items, later pages are empty. -/
def demoServer : ApiServer := fun p _ =>
  if p = 1 then ⟨[5, 6], some 2⟩ else ⟨[], some 2⟩

/-- Witness for `fetch_all_images_terminates` on `demoServer`: after one
iteration the guard `2 < 2` fails, so the loop exits. -/
theorem fetch_all_images_terminates_witness :
    faStops demoServer 120 ((faStep demoServer 120)^[1] (1, [], none))
      ∧ ((∃ fuel r, fetchAllImages demoServer 120 fuel = some r)
          ∧ (∀ fuel r, fetchAllImages demoServer 120 fuel = some r →
              (∀ p b, (demoServer p b).total = none) → r.2 = r.1.length)) :=
  ⟨by decide, fetch_all_images_terminates demoServer 120 ⟨1, by decide⟩⟩
